import Mathlib

/-!
# Verification of the Futuristic-HUD SystemMonitor core

Shallow embedding of `src/SystemMonitor.h` / `src/SystemMonitor.cpp`
(the monitor core; the ImGui/GLFW UI in `main.cpp` is an external consumer
and out of scope).

Modelling conventions:
* `std::string` is embedded as `List Nat` of byte values (the code treats
  strings as byte sequences; `tolower` acts on `unsigned char`).
* `float`/`double` arithmetic is embedded exactly over `ℚ` (no claim here
  depends on rounding).
* `unsigned long long` arithmetic carries an explicit `% 2^64`.
* OS interactions (reading `/proc/stat`, `sysinfo`, `popen("ps ...")`,
  `kill`, libcurl, wall-clock time) are inputs to the embedded functions:
  each call site receives the value the OS call would have produced,
  with `Option`/a dedicated outcome type marking the failure cases the
  code branches on.
-/

namespace HUD

/-- Byte string: embedding of `std::string` as the list of its byte values. -/
abbrev ByteStr := List Nat

/-- Byte values of a Lean string literal (used to transcribe the string
literals appearing in the C++ source). -/
def strBytes (s : String) : ByteStr := s.data.map Char.toNat

/-- `tolower` on one byte, C locale: `'A'..'Z'` (65..90) map to 97..122,
everything else is unchanged (`SystemMonitor.cpp:42-46`). -/
def toLowerByte (b : Nat) : Nat := if 65 ≤ b ∧ b ≤ 90 then b + 32 else b

/-- `toLower` from `SystemMonitor.cpp:42-46`: per-byte `std::tolower`. -/
def toLower (s : ByteStr) : ByteStr := s.map toLowerByte

/-- `ProcessInfo` from `SystemMonitor.h:11-14`. -/
structure ProcessInfo where
  pid : Int
  name : ByteStr
  deriving DecidableEq, Repr

/-- Byte of a decimal digit `d` (`0 ≤ d ≤ 9` at every use site). -/
def digitByte (d : Nat) : Nat := 48 + d

/-- Decimal rendering of a natural number, as produced by
`std::to_string` (most significant digit first, `0 ↦ "0"`). -/
def natDecimal (n : Nat) : ByteStr :=
  if n = 0 then [48] else ((Nat.digits 10 n).map digitByte).reverse

/-- Decimal rendering of an `int`, as produced by `std::to_string(p.pid)`
in `SystemMonitor.cpp:92` (leading `'-'` (45) for negative values). -/
def intDecimal (i : Int) : ByteStr :=
  if i < 0 then 45 :: natDecimal i.natAbs else natDecimal i.natAbs

/-- The filter test applied to one cached record inside
`SystemMonitor::GetProcesses` (`SystemMonitor.cpp:90-92`):
keep `p` when the lowered filter is empty, or is a substring of the
lowered name, or is a substring of the decimal pid string. -/
def procKeep (filterLower : ByteStr) (p : ProcessInfo) : Bool :=
  filterLower.isEmpty
    || decide (filterLower <:+: toLower p.name)
    || decide (filterLower <:+: intDecimal p.pid)

/-- `SystemMonitor::GetProcesses` (`SystemMonitor.cpp:84-97`), as a pure
function of the cached list: lower the filter once, then keep exactly the
matching records in cache order. -/
def getProcesses (cache : List ProcessInfo) (filter : ByteStr) :
    List ProcessInfo :=
  cache.filter (procKeep (toLower filter))

/-! ## Process enumeration (`SystemMonitor::QueryProcesses`, POSIX branch,
`SystemMonitor.cpp:288-315`)

The code runs `popen("ps -axo pid=,comm=")` and parses each line with
`iss >> pid` followed by `getline` and a leading-whitespace trim. Input to
the embedding: `none` when `popen` fails, otherwise the list of output
lines (each line a `ByteStr`, terminating newline already stripped, as
`std::getline` does). -/

/-- `isspace` in the C locale: space (32) and the control characters
9..13 (`\t \n \v \f \r`). -/
def isSpaceByte (b : Nat) : Bool := b = 32 || (9 ≤ b && b ≤ 13)

/-- ASCII decimal digit test, `'0'..'9'`. -/
def isDigitByte (b : Nat) : Bool := 48 ≤ b && b ≤ 57

/-- Value of a digit run, most significant first (as `istream` accumulates
an extracted integer). -/
def digitsVal (ds : ByteStr) : Nat := ds.foldl (fun acc d => acc * 10 + (d - 48)) 0

/-- `iss >> pid` on one line: skip leading whitespace, accept an optional
sign, then require at least one digit; returns the extracted `int` and the
unread remainder of the line, or `none` when extraction fails (the C++
loop then `continue`s past the line). -/
def extractInt (line : ByteStr) : Option (Int × ByteStr) :=
  let l := line.dropWhile isSpaceByte
  match l with
  | 45 :: rest =>
      let ds := rest.takeWhile isDigitByte
      if ds.isEmpty then none
      else some (-(digitsVal ds : Int), rest.dropWhile isDigitByte)
  | 43 :: rest =>
      let ds := rest.takeWhile isDigitByte
      if ds.isEmpty then none
      else some ((digitsVal ds : Int), rest.dropWhile isDigitByte)
  | _ =>
      let ds := l.takeWhile isDigitByte
      if ds.isEmpty then none
      else some ((digitsVal ds : Int), l.dropWhile isDigitByte)

/-- Body of the `fgets` loop for one line (`SystemMonitor.cpp:297-312`):
extract the pid (skip the line when that fails), take the rest of the line
as the name, trim leading whitespace, and substitute `"unknown"` for an
empty name. -/
def parsePsLine (line : ByteStr) : Option ProcessInfo :=
  match extractInt line with
  | none => none
  | some (pid, rest) =>
      let trimmed := rest.dropWhile isSpaceByte
      let name := if trimmed.isEmpty then strBytes "unknown" else trimmed
      some ⟨pid, name⟩

/-- `SystemMonitor::QueryProcesses` (`SystemMonitor.cpp:271-317`, POSIX
branch): empty list when `popen` fails, otherwise every successfully
parsed line in order. -/
def queryProcesses (psOutput : Option (List ByteStr)) : List ProcessInfo :=
  match psOutput with
  | none => []
  | some lines => lines.filterMap parsePsLine

/-! ## CPU sampling (`SystemMonitor::SampleCpuUsage`, Linux branch,
`SystemMonitor.cpp:196-219`)

Input: `none` when `/proc/stat` cannot be opened or its first token is not
`"cpu"` (both early-return 0 before touching the baselines), otherwise the
eight cumulative jiffy counters. All counters are `unsigned long long`;
arithmetic is mod `2^64`. The float result is embedded exactly over `ℚ`. -/

/-- One observation of `/proc/stat`'s first line. -/
structure CpuCounters where
  user : Nat
  nice : Nat
  system : Nat
  idle : Nat
  iowait : Nat
  irq : Nat
  softirq : Nat
  steal : Nat
  deriving DecidableEq, Repr

/-- Wrap-around `a - b` on `unsigned long long`. -/
def sub64 (a b : Nat) : Nat := (a + 2 ^ 64 - b % 2 ^ 64) % 2 ^ 64

/-- `idleAll = idle + iowait` (mod `2^64`). -/
def idleAllOf (c : CpuCounters) : Nat := (c.idle + c.iowait) % 2 ^ 64

/-- `total = idleAll + nonIdle` with
`nonIdle = user + nice + system + irq + softirq + steal` (mod `2^64`). -/
def totalOf (c : CpuCounters) : Nat :=
  (idleAllOf c + (c.user + c.nice + c.system + c.irq + c.softirq + c.steal)) % 2 ^ 64

/-- `SystemMonitor::SampleCpuUsage`, Linux branch: given the stored
baselines `(lastTotal, lastIdle)` and the current observation, return the
reported usage together with the new baselines. On a read failure the
baselines are untouched; on success they are updated *before* the
`totalDiff == 0` early return, exactly as in the source. -/
def sampleCpuUsage (lastTotal lastIdle : Nat) (obs : Option CpuCounters) :
    ℚ × Nat × Nat :=
  match obs with
  | none => (0, lastTotal, lastIdle)
  | some c =>
      let idleAll := idleAllOf c
      let total := totalOf c
      let totalDiff := sub64 total lastTotal
      let idleDiff := sub64 idleAll lastIdle
      if totalDiff = 0 then (0, total, idleAll)
      else (100 * ((sub64 totalDiff idleDiff : Nat) : ℚ) / (totalDiff : ℚ),
            total, idleAll)

/-! ## RAM sampling and hardware snapshot -/

/-- `HardwareStats` from `SystemMonitor.h:16-20` (floats over `ℚ`). -/
structure HardwareStats where
  cpuLoadPercent : ℚ := 0
  ramUsedGB : ℚ := 0
  ramTotalGB : ℚ := 0
  deriving DecidableEq, Repr

/-- Input to `SampleRamUsage` (Linux branch, `SystemMonitor.cpp:258-266`):
`none` when `sysinfo` fails (the stats fields are then left at their
zero-initialised values), otherwise total/free ram in `mem_unit` bytes,
already multiplied out and converted to GB over `ℚ`. -/
structure RamInfo where
  totalGB : ℚ
  freeGB : ℚ
  deriving DecidableEq, Repr

/-- `SystemMonitor::SampleRamUsage` (Linux branch): fills the ram fields
of a `HardwareStats` being built, leaving them as they were on failure. -/
def sampleRamUsage (stats : HardwareStats) (ram : Option RamInfo) :
    HardwareStats :=
  match ram with
  | none => stats
  | some r => { stats with ramTotalGB := r.totalGB,
                           ramUsedGB := r.totalGB - r.freeGB }

/-- `SystemMonitor::MaxHistory` (`SystemMonitor.h:71`). -/
def MaxHistory : Nat := 256

/-- The history mutation inside `SystemMonitor::UpdateHardware`
(`SystemMonitor.cpp:143-146`): erase the front element when at capacity,
then append the fresh sample. -/
def pushHistory (h : List ℚ) (cpu : ℚ) : List ℚ :=
  (if MaxHistory ≤ h.length then h.tail else h) ++ [cpu]

/-! ## Weather fetch (`SystemMonitor::FetchWeatherBlocking`,
`SystemMonitor.cpp:331-381`)

The network and `json::parse` are embedded at the parse boundary: an
attempt either fails before a JSON value exists (`curl_easy_init` null,
`curl_easy_perform ≠ CURLE_OK` — network error or timeout —, or
`json::parse` throwing on a malformed body) or yields a JSON value. -/

/-- JSON values, as produced by `nlohmann::json::parse`. Object keys are
byte strings; numbers are embedded over `ℚ`. -/
inductive JVal where
  | jnull : JVal
  | jbool : Bool → JVal
  | jnum : ℚ → JVal
  | jstr : ByteStr → JVal
  | jarr : List JVal → JVal
  | jobj : List (ByteStr × JVal) → JVal

/-- `j.contains(k)` / `j[k]` on a parsed value: field lookup, defined only
on objects (`contains` is `false` on every non-object). -/
def JVal.find : JVal → ByteStr → Option JVal
  | .jobj fields, k => List.lookup k fields
  | _, _ => none

/-- `cw.value(k, dflt)` for an arithmetic target type: throws
(`.error ()`) when the receiver is not an object or the present field is
not a number; returns the default when the field is absent
(`nlohmann::basic_json::value`). -/
def JVal.numValue : JVal → ByteStr → ℚ → Except Unit ℚ
  | .jobj fields, k, dflt =>
      match List.lookup k fields with
      | none => .ok dflt
      | some (.jnum q) => .ok q
      | some _ => .error ()
  | _, _, _ => .error ()

/-- `static_cast<int>` of the JSON number read into `int code`
(truncation toward zero). -/
def truncToInt (q : ℚ) : Int := if q < 0 then q.ceil else q.floor

/-- `WeatherInfo` from `SystemMonitor.h:22-27`. `lastUpdated`
(`system_clock::now()`) is embedded as an abstract tick count supplied by
the environment. -/
structure WeatherInfo where
  summary : ByteStr
  temperatureC : ℚ := 0
  windKph : ℚ := 0
  lastUpdated : Nat := 0
  deriving DecidableEq, Repr

/-- Outcome of one fetch attempt, up to the parse boundary. -/
inductive FetchOutcome where
  | initFail : FetchOutcome
  | curlError : FetchOutcome
  | parseError : FetchOutcome
  | parsed : JVal → FetchOutcome

/-- `SystemMonitor::FetchWeatherBlocking` as a function from the attempt
outcome (and the current time) to the value stored into `m_weather`:
every failure path executes `m_weather.reset()` (`none`), the success
path builds the reading with `value(..., default)` fields — a thrown
conversion lands in the `catch (...)` which also resets. The prior
reading never flows into the result. -/
def fetchWeatherResult (outcome : FetchOutcome) (now : Nat) :
    Option WeatherInfo :=
  match outcome with
  | .initFail => none
  | .curlError => none
  | .parseError => none
  | .parsed j =>
      match j.find (strBytes "current_weather") with
      | none => none
      | some cw =>
          match cw.numValue (strBytes "temperature") 0,
                cw.numValue (strBytes "windspeed") 0,
                cw.numValue (strBytes "weathercode") 0 with
          | .ok t, .ok w, .ok c =>
              some { summary := strBytes "Code " ++ intDecimal (truncToInt c),
                     temperatureC := t, windKph := w, lastUpdated := now }
          | _, _, _ => none

/-! ## The monitor state and its operations -/

/-- The mutable state of a `SystemMonitor` (`SystemMonitor.h:66-92`),
minus the OS handles (mutexes and the worker thread object, which carry
no data). -/
structure Monitor where
  hwStats : HardwareStats
  cpuHistory : List ℚ
  lastTotalJiffies : Nat
  lastIdleJiffies : Nat
  weather : Option WeatherInfo
  weatherLoading : Bool
  processesCache : List ProcessInfo
  deriving DecidableEq, Repr

/-- `SystemMonitor::SystemMonitor` (`SystemMonitor.cpp:49-59`): members
start at their defaults, then the constructor calls `SampleCpuUsage()`
once to prime the baselines, discarding the returned value. `prime` is
the `/proc/stat` observation that priming call sees. -/
def initMonitor (prime : Option CpuCounters) : Monitor :=
  let s := sampleCpuUsage 0 0 prime
  { hwStats := {}
    cpuHistory := []
    lastTotalJiffies := s.2.1
    lastIdleJiffies := s.2.2
    weather := none
    weatherLoading := false
    processesCache := [] }

/-- Environment inputs consumed by one `Update()` tick. -/
structure TickEnv where
  cpu : Option CpuCounters
  ram : Option RamInfo
  ps : Option (List ByteStr)
  deriving Repr

/-- `SystemMonitor::UpdateHardware` (`SystemMonitor.cpp:134-148`): sample
CPU (updating the baselines), build a fresh `HardwareStats`, then replace
the snapshot and push onto the history. -/
def updateHardware (m : Monitor) (cpu : Option CpuCounters)
    (ram : Option RamInfo) : Monitor :=
  let s := sampleCpuUsage m.lastTotalJiffies m.lastIdleJiffies cpu
  let stats := sampleRamUsage { cpuLoadPercent := s.1 } ram
  { m with hwStats := stats
           cpuHistory := pushHistory m.cpuHistory s.1
           lastTotalJiffies := s.2.1
           lastIdleJiffies := s.2.2 }

/-- `SystemMonitor::Update` (`SystemMonitor.cpp:69-77`): update hardware,
then replace the process cache wholesale with the enumeration result. -/
def update (m : Monitor) (e : TickEnv) : Monitor :=
  let m1 := updateHardware m e.cpu e.ram
  { m1 with processesCache := queryProcesses e.ps }

/-- A whole run: `Update()` once per tick over a list of tick inputs. -/
def run (m : Monitor) (envs : List TickEnv) : Monitor :=
  envs.foldl update m

/-- The CPU sample each tick of a run reports (the value
`UpdateHardware` pushes onto the history), in tick order. -/
def runSamples (m : Monitor) (envs : List TickEnv) : List ℚ :=
  match envs with
  | [] => []
  | e :: es =>
      (sampleCpuUsage m.lastTotalJiffies m.lastIdleJiffies e.cpu).1
        :: runSamples (update m e) es

/-- `SystemMonitor::GetProcesses` at monitor level: the filtered copy and
the (unchanged, `const`-qualified) monitor state after the call. -/
def getProcessesM (m : Monitor) (filter : ByteStr) :
    List ProcessInfo × Monitor :=
  (getProcesses m.processesCache filter, m)

/-- `SystemMonitor::GetWeather` (`SystemMonitor.cpp:129-132`): a copy of
`m_weather` under the weather mutex. -/
def getWeather (m : Monitor) : Option WeatherInfo := m.weather

/-- `SystemMonitor::TerminateProcess` (`SystemMonitor.cpp:99-120`, POSIX
branch). `killErr` embeds the outcome of `kill(pid, SIGTERM)`: `none` on
success, `some errText` on failure with `errText` the `strerror(errno)`
bytes. Returns `(ok, errorMessage, state after the call)`; every path
returns normally (the function throws nothing), and the monitor state —
the process cache in particular — is untouched. -/
def terminateProcess (m : Monitor) (_pid : Int) (killErr : Option ByteStr) :
    Bool × ByteStr × Monitor :=
  match killErr with
  | none => (true, [], m)
  | some errText => (false, strBytes "kill(SIGTERM) failed: " ++ errText, m)

/-- `SystemMonitor::RequestWeatherRefresh` (`SystemMonitor.cpp:122-127`):
`m_weatherLoading.exchange(true)` — the flag becomes `true`; nothing else
happens whether or not it already was. -/
def requestWeatherRefresh (m : Monitor) : Monitor :=
  { m with weatherLoading := true }

/-- One poll iteration of `SystemMonitor::WeatherWorker`
(`SystemMonitor.cpp:321-329`): when the flag is set, perform one blocking
fetch (storing its result) and clear the flag; otherwise do nothing.
Returns the new state and whether a fetch was performed. -/
def weatherWorkerPoll (m : Monitor) (outcome : FetchOutcome) (now : Nat) :
    Monitor × Bool :=
  if m.weatherLoading then
    ({ m with weather := fetchWeatherResult outcome now,
              weatherLoading := false }, true)
  else (m, false)

/-! ## Lock discipline over the hardware snapshot and CPU history

`m_hwMutex` (`SystemMonitor.h:68`) guards `m_hwStats` and `m_cpuHistory`.
Which functions that touch this state acquire it is a syntactic fact of
the source, recorded here per accessor. -/

/-- The three functions that access `m_hwStats` / `m_cpuHistory`. -/
inductive HwAccessor where
  | updateHardware : HwAccessor
  | getHardwareStats : HwAccessor
  | getCpuHistory : HwAccessor
  deriving DecidableEq, Repr

/-- Whether the accessor takes `std::lock_guard<std::mutex>(m_hwMutex)`
around its access: the writer section of `UpdateHardware` does
(`SystemMonitor.cpp:141`), `GetHardwareStats` does
(`SystemMonitor.cpp:80`), and the inline `GetCpuHistory`
(`SystemMonitor.h:39`) returns `const std::vector<float>&` directly with
no lock. -/
def acquiresHwMutex : HwAccessor → Bool
  | .updateHardware => true
  | .getHardwareStats => true
  | .getCpuHistory => false

/-- The intermediate value of `m_cpuHistory` inside `UpdateHardware`'s
critical section, after the `erase` at capacity but before the
`push_back` (`SystemMonitor.cpp:143-145`) — the state a reader that does
not hold `m_hwMutex` can observe mid-update. -/
def midEvictionHistory (h : List ℚ) : List ℚ :=
  if MaxHistory ≤ h.length then h.tail else h

/-! ## Spec-side predicate for `GetProcesses` filtering

Stated from the spec's words, to be compared with the code's
`procKeep`: a record matches when the filter is empty, or the name
contains the filter case-insensitively, or the decimal pid string
contains the filter exactly as written. -/

/-- The spec's matching condition for `GetProcesses(filter)`. -/
def specProcessMatch (filter : ByteStr) (p : ProcessInfo) : Prop :=
  filter = [] ∨ toLower filter <:+: toLower p.name ∨ filter <:+: intDecimal p.pid

instance (filter : ByteStr) (p : ProcessInfo) :
    Decidable (specProcessMatch filter p) := by
  unfold specProcessMatch; infer_instance

/-! ## Helper lemmas -/

/-- Every byte of a decimal pid rendering is a digit or the minus sign. -/
theorem mem_intDecimal_digit {i : Int} {b : Nat} (h : b ∈ intDecimal i) :
    b = 45 ∨ (48 ≤ b ∧ b ≤ 57) := by
  have hnat : ∀ n : Nat, ∀ x ∈ natDecimal n, 48 ≤ x ∧ x ≤ 57 := by
    intro n x hx
    unfold natDecimal at hx
    by_cases hn : n = 0
    · simp [hn] at hx; omega
    · simp [hn, List.mem_reverse, List.mem_map] at hx
      obtain ⟨d, hd, rfl⟩ := hx
      have := Nat.digits_lt_base (by norm_num) hd
      unfold digitByte; omega
  unfold intDecimal at h
  by_cases hi : i < 0
  · simp [hi] at h
    rcases h with h | h
    · exact Or.inl h
    · exact Or.inr (hnat _ _ h)
  · simp [hi] at h
    exact Or.inr (hnat _ _ h)

/-- `tolower` fixes digits and the minus sign. -/
theorem toLowerByte_fixes {b : Nat} (h : b = 45 ∨ (48 ≤ b ∧ b ≤ 57)) :
    toLowerByte b = b := by
  unfold toLowerByte
  rw [if_neg]; omega

/-- A list all of whose elements a map fixes is fixed by the map. -/
theorem map_eq_self_of_fixes {α : Type} {f : α → α} {l : List α}
    (h : ∀ x ∈ l, f x = x) : l.map f = l := by
  induction l with
  | nil => rfl
  | cons a t ih =>
      simp only [List.map_cons, h a (List.mem_cons_self a t)]
      rw [ih fun x hx => h x (List.mem_cons_of_mem a hx)]

/-- Lowering the filter does not change whether it occurs inside a
decimal pid string: such an occurrence forces every byte of the filter to
be a digit or `'-'`, on which `tolower` is the identity. -/
theorem toLower_infix_intDecimal_iff (f : ByteStr) (i : Int) :
    toLower f <:+: intDecimal i ↔ f <:+: intDecimal i := by
  constructor
  · intro h
    have hfix : toLower f = f := by
      apply map_eq_self_of_fixes
      intro b hb
      have hmem : toLowerByte b ∈ intDecimal i :=
        h.subset (List.mem_map_of_mem toLowerByte hb)
      have hdig := mem_intDecimal_digit hmem
      unfold toLowerByte at hdig ⊢
      by_cases hcase : 65 ≤ b ∧ b ≤ 90
      · simp [hcase] at hdig; omega
      · simp [hcase]
    rwa [hfix] at h
  · intro h
    have hfix : toLower f = f := by
      apply map_eq_self_of_fixes
      intro b hb
      exact toLowerByte_fixes (mem_intDecimal_digit (h.subset hb))
    rwa [hfix]

/-- The code's per-record filter test agrees with the spec's matching
condition. -/
theorem procKeep_eq_spec (f : ByteStr) (p : ProcessInfo) :
    procKeep (toLower f) p = decide (specProcessMatch f p) := by
  have hiff : procKeep (toLower f) p = true ↔ specProcessMatch f p := by
    unfold procKeep specProcessMatch
    simp only [Bool.or_eq_true, decide_eq_true_eq, List.isEmpty_iff]
    rw [toLower_infix_intDecimal_iff]
    constructor
    · rintro ((h | h) | h)
      · exact Or.inl ((List.map_eq_nil_iff).mp h)
      · exact Or.inr (Or.inl h)
      · exact Or.inr (Or.inr h)
    · rintro (h | h | h)
      · exact Or.inl (Or.inl (by simp [toLower, h]))
      · exact Or.inl (Or.inr h)
      · exact Or.inr h
  by_cases hm : specProcessMatch f p
  · simp [hm, hiff.mpr hm]
  · have hne : procKeep (toLower f) p ≠ true := fun hh => hm (hiff.mp hh)
    simp [hm]
    exact Bool.not_eq_true _ |>.mp hne

/-- Folding `pushHistory` from a history within capacity keeps exactly
the last `MaxHistory` elements of the concatenated stream. -/
theorem foldl_pushHistory_eq_drop (cs : List ℚ) :
    ∀ h : List ℚ, h.length ≤ MaxHistory →
      cs.foldl pushHistory h = (h ++ cs).drop (h.length + cs.length - MaxHistory) := by
  induction cs with
  | nil =>
      intro h hh
      have hz : h.length - MaxHistory = 0 := by omega
      simp only [List.foldl_nil, List.append_nil, List.length_nil,
        Nat.add_zero, hz, List.drop_zero]
  | cons c cs ih =>
      intro h hh
      rw [List.foldl_cons]
      have hN : 1 ≤ MaxHistory := by unfold MaxHistory; omega
      by_cases hcap : MaxHistory ≤ h.length
      · have hlen : h.length = MaxHistory := le_antisymm hh hcap
        have hpos : 1 ≤ h.length := by omega
        have hpush : pushHistory h c = h.tail ++ [c] := by
          unfold pushHistory; rw [if_pos hcap]
        have hplen : (pushHistory h c).length = h.length := by
          rw [hpush]; simp only [List.length_append, List.length_tail,
            List.length_singleton]; omega
        have htl : (pushHistory h c).length ≤ MaxHistory := by omega
        rw [ih _ htl]
        have harr : pushHistory h c ++ cs = (h ++ c :: cs).drop 1 := by
          rw [hpush, List.append_assoc, List.singleton_append,
            List.drop_append_of_le_length hpos, List.drop_one]
        rw [harr, List.drop_drop]
        have hidx : 1 + ((pushHistory h c).length + cs.length - MaxHistory) =
            h.length + (c :: cs).length - MaxHistory := by
          simp only [hplen, List.length_cons]; omega
        rw [hidx]
      · push_neg at hcap
        have hpush : pushHistory h c = h ++ [c] := by
          unfold pushHistory; rw [if_neg (by omega)]
        have hplen : (pushHistory h c).length = h.length + 1 := by
          rw [hpush]; simp only [List.length_append, List.length_singleton]
        have hlen2 : (pushHistory h c).length ≤ MaxHistory := by omega
        rw [ih _ hlen2, hpush, List.append_assoc, List.singleton_append]
        have hidx : (pushHistory h c).length + cs.length - MaxHistory =
            h.length + (c :: cs).length - MaxHistory := by
          simp only [hplen, List.length_cons]; omega
        rw [hpush] at hidx
        rw [hidx]

/-- The history after a run is the fold of `pushHistory` over the run's
samples. -/
theorem run_cpuHistory_eq_foldl (envs : List TickEnv) :
    ∀ m : Monitor,
      (run m envs).cpuHistory = (runSamples m envs).foldl pushHistory m.cpuHistory := by
  induction envs with
  | nil => intro m; rfl
  | cons e es ih =>
      intro m
      have hstep : (update m e).cpuHistory =
          pushHistory m.cpuHistory
            (sampleCpuUsage m.lastTotalJiffies m.lastIdleJiffies e.cpu).1 := rfl
      calc (run m (e :: es)).cpuHistory
          = (run (update m e) es).cpuHistory := rfl
        _ = (runSamples (update m e) es).foldl pushHistory (update m e).cpuHistory :=
            ih (update m e)
        _ = (runSamples m (e :: es)).foldl pushHistory m.cpuHistory := by
            rw [hstep]; rfl

/-- A run produces one sample per tick. -/
theorem runSamples_length (envs : List TickEnv) :
    ∀ m : Monitor, (runSamples m envs).length = envs.length := by
  induction envs with
  | nil => intro m; rfl
  | cons e es ih => intro m; simpa [runSamples] using ih (update m e)

/-- Wrap-around subtraction coincides with plain subtraction when no
wrap occurs. -/
theorem sub64_eq_sub {a b : Nat} (hb : b ≤ a) (ha : a < 2 ^ 64) :
    sub64 a b = a - b := by
  unfold sub64; omega

/-- The fetch attempts the code treats as failures: `curl_easy_init`
returning null, a non-`CURLE_OK` transfer (network error or timeout),
`json::parse` throwing (malformed body), and a parsed body without the
required `current_weather` field. -/
def attemptFailed : FetchOutcome → Prop
  | .initFail => True
  | .curlError => True
  | .parseError => True
  | .parsed j => j.find (strBytes "current_weather") = none

/-- A failed attempt stores no reading. -/
theorem fetchWeatherResult_none_of_failed {o : FetchOutcome} (now : Nat)
    (h : attemptFailed o) : fetchWeatherResult o now = none := by
  cases o with
  | initFail => rfl
  | curlError => rfl
  | parseError => rfl
  | parsed j =>
      simp only [attemptFailed] at h
      simp only [fetchWeatherResult, h]

/-- After at least one `RequestWeatherRefresh`, the loading flag is set. -/
theorem iterate_request_loading (m : Monitor) {n : Nat} (hn : 1 ≤ n) :
    (requestWeatherRefresh^[n] m).weatherLoading = true := by
  obtain ⟨k, rfl⟩ : ∃ k, n = k + 1 := ⟨n - 1, by omega⟩
  rw [Function.iterate_succ_apply']
  rfl

/-- Every record produced by parsing a `ps` output line has a non-empty
name. -/
theorem parsePsLine_name_ne_nil {line : ByteStr} {r : ProcessInfo}
    (h : parsePsLine line = some r) : r.name ≠ [] := by
  unfold parsePsLine at h
  cases hext : extractInt line with
  | none => rw [hext] at h; exact absurd h (by simp)
  | some pr =>
      rw [hext] at h
      simp only [Option.some.injEq] at h
      subst h
      intro hcontra
      by_cases he : (List.dropWhile isSpaceByte pr.2).isEmpty = true
      · rw [if_pos he] at hcontra
        simp [strBytes] at hcontra
      · rw [if_neg he] at hcontra
        have hnil : List.dropWhile isSpaceByte pr.2 = [] := hcontra
        rw [hnil] at he
        exact he rfl

/-! ## Shared concrete instances (used by witnesses) -/

/-- A freshly constructed monitor whose priming `/proc/stat` read failed. -/
def mEx : Monitor := initMonitor none

/-- A tick whose every OS interaction fails. -/
def envFail : TickEnv := ⟨none, none, none⟩

/-- A concrete prior weather reading. -/
def wEx : WeatherInfo :=
  { summary := strBytes "Code 3", temperatureC := 21, windKph := 9,
    lastUpdated := 5 }

/-! # Claim theorems -/

/-- C1: for every sequence of `Update()` calls starting from a freshly
constructed monitor, the CPU history length never exceeds the capacity
`MaxHistory = 256`; the history always equals the most recent samples in
chronological order (the drop formula), and after more than `MaxHistory`
updates it holds exactly `MaxHistory` entries — the oldest sample is
evicted FIFO before each append at capacity. -/
theorem cpuHistory_bounded_fifo (prime : Option CpuCounters)
    (envs : List TickEnv) :
    (run (initMonitor prime) envs).cpuHistory.length ≤ MaxHistory ∧
    (run (initMonitor prime) envs).cpuHistory =
      (runSamples (initMonitor prime) envs).drop (envs.length - MaxHistory) ∧
    (MaxHistory < envs.length →
      (run (initMonitor prime) envs).cpuHistory.length = MaxHistory) := by
  have hfold := run_cpuHistory_eq_foldl envs (initMonitor prime)
  have hinit : (initMonitor prime).cpuHistory = [] := rfl
  rw [hinit] at hfold
  have hdrop := foldl_pushHistory_eq_drop
    (runSamples (initMonitor prime) envs) [] (by simp [MaxHistory])
  simp only [List.nil_append, List.length_nil, Nat.zero_add] at hdrop
  have hmain : (run (initMonitor prime) envs).cpuHistory =
      (runSamples (initMonitor prime) envs).drop (envs.length - MaxHistory) := by
    rw [hfold, hdrop, runSamples_length]
  refine ⟨?_, hmain, fun hgt => ?_⟩
  · rw [hmain, List.length_drop, runSamples_length]; omega
  · rw [hmain, List.length_drop, runSamples_length]
    unfold MaxHistory at hgt ⊢
    omega

/-- C1 witness: a concrete run of 257 failing ticks from a fresh monitor
keeps exactly the last 256 samples. -/
theorem cpuHistory_bounded_fifo_witness :
    (run (initMonitor none) (List.replicate 257 envFail)).cpuHistory.length
        ≤ MaxHistory ∧
    (run (initMonitor none) (List.replicate 257 envFail)).cpuHistory =
      (runSamples (initMonitor none) (List.replicate 257 envFail)).drop
        ((List.replicate 257 envFail).length - MaxHistory) ∧
    (run (initMonitor none) (List.replicate 257 envFail)).cpuHistory.length
        = MaxHistory :=
  ⟨(cpuHistory_bounded_fifo none (List.replicate 257 envFail)).1,
   (cpuHistory_bounded_fifo none (List.replicate 257 envFail)).2.1,
   (cpuHistory_bounded_fifo none (List.replicate 257 envFail)).2.2
     (by rw [List.length_replicate]; unfold MaxHistory; omega)⟩

/-- C2: `GetProcesses(filter)` returns exactly the cached records whose
name matches the filter case-insensitively or whose decimal pid string
contains the filter (the spec's wording, `specProcessMatch`), in cache
order; the empty filter keeps every record (`specProcessMatch [] p`
always holds); and the call leaves the monitor state — the cache in
particular — unchanged. -/
theorem getProcesses_spec_and_pure (m : Monitor) (filter : ByteStr) :
    (getProcessesM m filter).1 =
      m.processesCache.filter (fun p => decide (specProcessMatch filter p)) ∧
    (getProcessesM m filter).2 = m := by
  refine ⟨?_, rfl⟩
  show getProcesses m.processesCache filter = _
  unfold getProcesses
  exact List.filter_congr fun p _ => procKeep_eq_spec filter p

/-- C5: a `TerminateProcess` call whose `kill` fails returns `false`
together with a non-empty human-readable message, returns normally
(the embedding is a total function — nothing is thrown), and leaves the
monitor state, the process cache in particular, exactly as it was. -/
theorem terminateProcess_failure_reported (m : Monitor) (pid : Int)
    (errText : ByteStr) :
    (terminateProcess m pid (some errText)).1 = false ∧
    (terminateProcess m pid (some errText)).2.1 ≠ [] ∧
    (terminateProcess m pid (some errText)).2.2 = m := by
  refine ⟨rfl, ?_, rfl⟩
  show strBytes "kill(SIGTERM) failed: " ++ errText ≠ []
  simp [strBytes]

/-- C5 witness: terminating a concrete nonexistent pid with
`ESRCH`-style error text. -/
theorem terminateProcess_failure_reported_witness :
    (terminateProcess mEx 424242 (some (strBytes "No such process"))).1
        = false ∧
    (terminateProcess mEx 424242 (some (strBytes "No such process"))).2.1
        ≠ [] ∧
    (terminateProcess mEx 424242 (some (strBytes "No such process"))).2.2
        = mEx :=
  terminateProcess_failure_reported mEx 424242 (strBytes "No such process")

/-- C9: every record produced by process enumeration has a non-empty
name (a process whose name cannot be read gets the placeholder
`"unknown"`), and hence so does every record `GetProcesses` returns for
any filter over such a cache. -/
theorem processRecord_name_nonempty :
    (∀ (ps : Option (List ByteStr)) (r : ProcessInfo),
        r ∈ queryProcesses ps → r.name ≠ []) ∧
    (∀ (ps : Option (List ByteStr)) (filter : ByteStr) (r : ProcessInfo),
        r ∈ getProcesses (queryProcesses ps) filter → r.name ≠ []) := by
  have h1 : ∀ (ps : Option (List ByteStr)) (r : ProcessInfo),
      r ∈ queryProcesses ps → r.name ≠ [] := by
    intro ps r hr
    cases ps with
    | none => simp [queryProcesses] at hr
    | some lines =>
        simp only [queryProcesses, List.mem_filterMap] at hr
        obtain ⟨line, _, hp⟩ := hr
        exact parsePsLine_name_ne_nil hp
  exact ⟨h1, fun ps filter r hr => h1 ps r (List.mem_filter.mp hr).1⟩

/-- C9 witness: the record parsed from the `ps` line `" 1 bash"` has a
non-empty name. -/
theorem processRecord_name_nonempty_witness :
    (⟨1, [98, 97, 115, 104]⟩ : ProcessInfo).name ≠ [] :=
  processRecord_name_nonempty.1 (some [[32, 49, 32, 98, 97, 115, 104]])
    ⟨1, [98, 97, 115, 104]⟩ (by decide)

/-- C10: when process enumeration fails entirely (`popen` returns null,
embedded as `ps := none`), `Update()` still replaces the cache
wholesale, so whatever was cached before — `m` is arbitrary — is
discarded in favour of the empty list. -/
theorem update_enumFailure_clears_cache (m : Monitor)
    (cpu : Option CpuCounters) (ram : Option RamInfo) :
    (update m ⟨cpu, ram, none⟩).processesCache = [] := rfl

/-- C3: after the worker performs a fetch attempt that fails (curl init
failure, network error/timeout, malformed JSON, or missing
`current_weather` field), `GetWeather()` returns `none` — whatever
reading the arbitrary prior state `m` held, including a previous
success, is cleared. -/
theorem getWeather_none_after_failed_fetch (m : Monitor)
    (o : FetchOutcome) (now : Nat) (hfail : attemptFailed o)
    (hload : m.weatherLoading = true) :
    getWeather (weatherWorkerPoll m o now).1 = none := by
  unfold weatherWorkerPoll
  rw [if_pos hload]
  show fetchWeatherResult o now = none
  exact fetchWeatherResult_none_of_failed now hfail

/-- C3 witness: a network failure clears a concrete prior successful
reading. -/
theorem getWeather_none_after_failed_fetch_witness :
    getWeather (weatherWorkerPoll
      { mEx with weather := some wEx, weatherLoading := true }
      FetchOutcome.curlError 9).1 = none :=
  getWeather_none_after_failed_fetch
    { mEx with weather := some wEx, weatherLoading := true }
    FetchOutcome.curlError 9 trivial rfl

/-- C4: `RequestWeatherRefresh()` is idempotent on the monitor state
(the `exchange(true)` on the flag), and any number `n ≥ 1` of requests
issued before the worker's next poll trigger exactly one fetch: that
poll fetches (and clears the flag), and the poll after it does not. -/
theorem requestWeatherRefresh_coalesces :
    (∀ m : Monitor,
      requestWeatherRefresh (requestWeatherRefresh m)
        = requestWeatherRefresh m) ∧
    (∀ (m : Monitor) (n : Nat) (o o2 : FetchOutcome) (now now2 : Nat),
      1 ≤ n →
      (weatherWorkerPoll (requestWeatherRefresh^[n] m) o now).2 = true ∧
      (weatherWorkerPoll
        (weatherWorkerPoll (requestWeatherRefresh^[n] m) o now).1
        o2 now2).2 = false) := by
  constructor
  · intro m; rfl
  · intro m n o o2 now now2 hn
    have hload := iterate_request_loading m hn
    constructor
    · unfold weatherWorkerPoll
      rw [if_pos hload]
    · unfold weatherWorkerPoll
      rw [if_pos hload]
      rw [if_neg (by simp)]

/-- C4 witness: two requests in a row on a concrete monitor produce one
fetching poll followed by an idle poll. -/
theorem requestWeatherRefresh_coalesces_witness :
    requestWeatherRefresh (requestWeatherRefresh mEx)
        = requestWeatherRefresh mEx ∧
    (weatherWorkerPoll (requestWeatherRefresh^[2] mEx)
        FetchOutcome.curlError 1).2 = true ∧
    (weatherWorkerPoll
        (weatherWorkerPoll (requestWeatherRefresh^[2] mEx)
          FetchOutcome.curlError 1).1
        FetchOutcome.parseError 2).2 = false :=
  ⟨requestWeatherRefresh_coalesces.1 mEx,
   (requestWeatherRefresh_coalesces.2 mEx 2 FetchOutcome.curlError
      FetchOutcome.parseError 1 2 (by omega)).1,
   (requestWeatherRefresh_coalesces.2 mEx 2 FetchOutcome.curlError
      FetchOutcome.parseError 1 2 (by omega)).2⟩

/-- The general delta computation of `SampleCpuUsage` under
non-wrapping counters. -/
theorem sampleCpuUsage_delta (lastT lastI : Nat) (c : CpuCounters)
    (hT : lastT ≤ totalOf c) (hI : lastI ≤ idleAllOf c)
    (hd : idleAllOf c - lastI ≤ totalOf c - lastT)
    (hz : totalOf c - lastT ≠ 0) :
    sampleCpuUsage lastT lastI (some c) =
      (100 * (((totalOf c - lastT) - (idleAllOf c - lastI) : Nat) : ℚ) /
          (((totalOf c - lastT : Nat)) : ℚ),
        totalOf c, idleAllOf c) := by
  have h64T : totalOf c < 2 ^ 64 := Nat.mod_lt _ (by norm_num)
  have h64I : idleAllOf c < 2 ^ 64 := Nat.mod_lt _ (by norm_num)
  show (let idleAll := idleAllOf c
        let total := totalOf c
        let totalDiff := sub64 total lastT
        let idleDiff := sub64 idleAll lastI
        if totalDiff = 0 then ((0 : ℚ), total, idleAll)
        else (100 * ((sub64 totalDiff idleDiff : Nat) : ℚ) / (totalDiff : ℚ),
              total, idleAll)) = _
  simp only
  rw [sub64_eq_sub hT h64T, sub64_eq_sub hI h64I,
    sub64_eq_sub hd (by omega), if_neg hz]

/-- C7 counterexample: the very first sampling call after startup (zero
baselines, as performed inside the constructor) with `/proc/stat`
counters `user = 100, idle = 100` (all others 0) reports 50, not the
claimed defined baseline value 0. -/
theorem firstSample_not_zero :
    (sampleCpuUsage 0 0 (some ⟨100, 0, 0, 100, 0, 0, 0, 0⟩)).1 = 50 ∧
    ((50 : ℚ) ≠ 0) := by
  have htot : totalOf ⟨100, 0, 0, 100, 0, 0, 0, 0⟩ = 200 := by decide
  have hidle : idleAllOf ⟨100, 0, 0, 100, 0, 0, 0, 0⟩ = 100 := by decide
  have h := sampleCpuUsage_delta 0 0 ⟨100, 0, 0, 100, 0, 0, 0, 0⟩
    (Nat.zero_le _) (Nat.zero_le _) (by decide) (by decide)
  constructor
  · rw [h]
    simp only [htot, hidle]
    norm_num
  · norm_num

/-- C7 amended: the constructor primes the baselines with a first
sampling call whose value it discards and whose history contribution is
nil; that first call — having only the zero baselines — reports the
cumulative since-boot busy fraction (not 0); every later call reports
the delta between the previous and the current cumulative counters and
stores the current observation as the new baseline. -/
theorem sampleCpu_first_call_and_delta :
    (∀ prime : Option CpuCounters,
      (initMonitor prime).lastTotalJiffies = (sampleCpuUsage 0 0 prime).2.1 ∧
      (initMonitor prime).lastIdleJiffies = (sampleCpuUsage 0 0 prime).2.2 ∧
      (initMonitor prime).cpuHistory = []) ∧
    (∀ c : CpuCounters, idleAllOf c ≤ totalOf c → totalOf c ≠ 0 →
      (sampleCpuUsage 0 0 (some c)).1 =
        100 * ((totalOf c - idleAllOf c : Nat) : ℚ) /
          (((totalOf c : Nat)) : ℚ)) ∧
    (∀ (lastT lastI : Nat) (c : CpuCounters),
      lastT ≤ totalOf c → lastI ≤ idleAllOf c →
      idleAllOf c - lastI ≤ totalOf c - lastT →
      totalOf c - lastT ≠ 0 →
      sampleCpuUsage lastT lastI (some c) =
        (100 * (((totalOf c - lastT) - (idleAllOf c - lastI) : Nat) : ℚ) /
            (((totalOf c - lastT : Nat)) : ℚ),
          totalOf c, idleAllOf c)) := by
  refine ⟨fun prime => ⟨rfl, rfl, rfl⟩, fun c hIa hz => ?_,
    fun lastT lastI c hT hI hd hz =>
      sampleCpuUsage_delta lastT lastI c hT hI hd hz⟩
  have h := sampleCpuUsage_delta 0 0 c
    (Nat.zero_le _) (Nat.zero_le _) (by omega) (by omega)
  rw [h]
  simp

/-- C7 amended witness: first call at counters `(user 100, idle 100)`
reports 50; the following call at counters `(user 300, idle 150)`
reports the delta `100·(250−50)/250 = 80` and stores the new baselines. -/
theorem sampleCpu_first_call_and_delta_witness :
    ((initMonitor none).lastTotalJiffies = (sampleCpuUsage 0 0 none).2.1 ∧
      (initMonitor none).lastIdleJiffies = (sampleCpuUsage 0 0 none).2.2 ∧
      (initMonitor none).cpuHistory = []) ∧
    (sampleCpuUsage 0 0 (some ⟨100, 0, 0, 100, 0, 0, 0, 0⟩)).1 =
      100 * ((totalOf ⟨100, 0, 0, 100, 0, 0, 0, 0⟩ -
          idleAllOf ⟨100, 0, 0, 100, 0, 0, 0, 0⟩ : Nat) : ℚ) /
        (((totalOf ⟨100, 0, 0, 100, 0, 0, 0, 0⟩ : Nat)) : ℚ) ∧
    sampleCpuUsage 200 100 (some ⟨300, 0, 0, 150, 0, 0, 0, 0⟩) =
      (100 * (((totalOf ⟨300, 0, 0, 150, 0, 0, 0, 0⟩ - 200) -
            (idleAllOf ⟨300, 0, 0, 150, 0, 0, 0, 0⟩ - 100) : Nat) : ℚ) /
          (((totalOf ⟨300, 0, 0, 150, 0, 0, 0, 0⟩ - 200 : Nat)) : ℚ),
        totalOf ⟨300, 0, 0, 150, 0, 0, 0, 0⟩,
        idleAllOf ⟨300, 0, 0, 150, 0, 0, 0, 0⟩) :=
  ⟨sampleCpu_first_call_and_delta.1 none,
   sampleCpu_first_call_and_delta.2.1 ⟨100, 0, 0, 100, 0, 0, 0, 0⟩
     (by decide) (by decide),
   sampleCpu_first_call_and_delta.2.2 200 100 ⟨300, 0, 0, 150, 0, 0, 0, 0⟩
     (by decide) (by decide) (by decide) (by decide)⟩

/-- C8 counterexample: `GetCpuHistory` does not acquire the hardware
mutex (it returns a direct reference, `SystemMonitor.h:39`), so it is
false that every reader of the hardware snapshot and CPU history
serializes with `Update()` on that lock. -/
theorem getCpuHistory_unlocked :
    acquiresHwMutex HwAccessor.getCpuHistory = false ∧
    ¬(∀ a : HwAccessor, acquiresHwMutex a = true) := by
  refine ⟨rfl, fun h => ?_⟩
  have hc := h HwAccessor.getCpuHistory
  simp [acquiresHwMutex] at hc

/-- C8 amended: `Update()`'s writer section and `GetHardwareStats`
serialize on `m_hwMutex`, but `GetCpuHistory` takes no lock; an
unlocked reader can therefore observe the intermediate history inside
`UpdateHardware`'s critical section (after the eviction, before the
append) — a value that is neither the pre-update nor the post-update
history. -/
theorem hwLock_discipline_partial :
    acquiresHwMutex HwAccessor.updateHardware = true ∧
    acquiresHwMutex HwAccessor.getHardwareStats = true ∧
    acquiresHwMutex HwAccessor.getCpuHistory = false ∧
    (∃ (h : List ℚ) (c : ℚ),
      midEvictionHistory h ≠ h ∧
      midEvictionHistory h ≠ pushHistory h c) := by
  refine ⟨rfl, rfl, rfl, List.replicate 256 0, 0, ?_, ?_⟩
  · intro hcontra
    have hlen := congrArg List.length hcontra
    rw [List.length_replicate] at hlen
    have hmid : (midEvictionHistory (List.replicate 256 0)).length = 255 := by
      unfold midEvictionHistory
      rw [if_pos (by rw [List.length_replicate]; unfold MaxHistory; omega)]
      rw [List.length_tail, List.length_replicate]
    omega
  · intro hcontra
    have hlen := congrArg List.length hcontra
    have hmid : (midEvictionHistory (List.replicate 256 0)).length = 255 := by
      unfold midEvictionHistory
      rw [if_pos (by rw [List.length_replicate]; unfold MaxHistory; omega)]
      rw [List.length_tail, List.length_replicate]
    have hpush : (pushHistory (List.replicate 256 0) 0).length = 256 := by
      unfold pushHistory
      rw [if_pos (by rw [List.length_replicate]; unfold MaxHistory; omega)]
      rw [List.length_append, List.length_tail, List.length_replicate]
      simp
    omega

/-- C6 counterexample: a response whose `current_weather` object is
present but empty — `temperature`, `windspeed` and `weathercode` all
missing — still gets a reading stored (built from the `value(...,0)`
defaults), so it is false that a reading is stored only when all three
fields are present. -/
theorem fetchWeather_missing_fields_stored :
    fetchWeatherResult
        (FetchOutcome.parsed
          (JVal.jobj [(strBytes "current_weather", JVal.jobj [])])) 0 =
      some { summary := strBytes "Code " ++ [48], temperatureC := 0,
             windKph := 0, lastUpdated := 0 } ∧
    (JVal.jobj ([] : List (ByteStr × JVal))).find (strBytes "temperature")
      = none := by
  exact ⟨by decide, rfl⟩

/-- C6 amended: a fetch attempt stores a reading exactly when the body
parses as JSON containing a `current_weather` object for which each of
`temperature`, `windspeed`, `weathercode`, *when present*, is numeric —
an absent field falls back to the `value(..., 0)` default instead of
causing a failure; on a network error, malformed JSON, missing
`current_weather`, or a non-numeric field, nothing is stored. The
stored reading's fields are fully determined as shown. -/
theorem fetchWeather_stores_iff (o : FetchOutcome) (now : Nat)
    (r : WeatherInfo) :
    fetchWeatherResult o now = some r ↔
      ∃ j cw, o = FetchOutcome.parsed j ∧
        j.find (strBytes "current_weather") = some cw ∧
        cw.numValue (strBytes "temperature") 0 = .ok r.temperatureC ∧
        cw.numValue (strBytes "windspeed") 0 = .ok r.windKph ∧
        (∃ c, cw.numValue (strBytes "weathercode") 0 = .ok c ∧
          r.summary = strBytes "Code " ++ intDecimal (truncToInt c)) ∧
        r.lastUpdated = now := by
  cases o with
  | initFail => simp [fetchWeatherResult]
  | curlError => simp [fetchWeatherResult]
  | parseError => simp [fetchWeatherResult]
  | parsed j =>
      simp only [fetchWeatherResult, FetchOutcome.parsed.injEq]
      cases hf : j.find (strBytes "current_weather") with
      | none => simp [hf]
      | some cw =>
          cases ht : cw.numValue (strBytes "temperature") 0 with
          | error e => simp [ht, hf]
          | ok t =>
              cases hw : cw.numValue (strBytes "windspeed") 0 with
              | error e => simp [ht, hw, hf]
              | ok w =>
                  cases hc : cw.numValue (strBytes "weathercode") 0 with
                  | error e => simp [ht, hw, hc, hf]
                  | ok c =>
                      simp only [ht, hw, hc, Option.some.injEq]
                      constructor
                      · rintro rfl
                        exact ⟨j, cw, rfl, hf, ht, hw, ⟨c, hc, rfl⟩, rfl⟩
                      · rintro ⟨j', cw', heq, hfind, htv, hwv,
                          ⟨cv, hcv, hsum⟩, hupd⟩
                        subst heq
                        rw [hf] at hfind
                        injection hfind with hfind'
                        subst hfind'
                        rw [ht] at htv
                        injection htv with htv'
                        rw [hw] at hwv
                        injection hwv with hwv'
                        rw [hc] at hcv
                        injection hcv with hcv'
                        subst hcv'
                        cases r with
                        | mk s tc wk lu =>
                            simp only at htv' hwv' hsum hupd
                            subst htv'
                            subst hwv'
                            subst hsum
                            subst hupd
                            rfl

/-- C6 amended witness: a complete `current_weather` object stores the
expected reading. -/
theorem fetchWeather_stores_iff_witness :
    fetchWeatherResult
        (FetchOutcome.parsed
          (JVal.jobj [(strBytes "current_weather",
            JVal.jobj [(strBytes "temperature", JVal.jnum 7),
                       (strBytes "windspeed", JVal.jnum 3),
                       (strBytes "weathercode", JVal.jnum 0)])])) 4 =
      some { summary := strBytes "Code " ++ [48], temperatureC := 7,
             windKph := 3, lastUpdated := 4 } :=
  (fetchWeather_stores_iff
    (FetchOutcome.parsed
      (JVal.jobj [(strBytes "current_weather",
        JVal.jobj [(strBytes "temperature", JVal.jnum 7),
                   (strBytes "windspeed", JVal.jnum 3),
                   (strBytes "weathercode", JVal.jnum 0)])])) 4
    { summary := strBytes "Code " ++ [48], temperatureC := 7,
      windKph := 3, lastUpdated := 4 }).mpr
    ⟨_, _, rfl, rfl, rfl, rfl, ⟨0, rfl, rfl⟩, rfl⟩

end HUD








